import Mathlib

/-!
Verification of the grid-geometry part of pyclim-NorESM.

Shallow embedding of `regrid_functions.py` (make_bounds, mk_outgrid,
make_regridder) and of the relevant parts of
`functions/general_util_funcs.py` (consistent_naming, volumeavg_ocn).

Coordinate values are rationals.  A 2-D array with dims (j, i) is a list of
j-rows, each a list of i-values; a vertex array with dims (j, i, vertices)
adds one more nesting level.  xarray operations used by the source are
modelled value-wise: `isel(j=slice(0,n))` is `List.take n`, `isel(i=-1)`
picks the last element of each row, `xr.concat(..., dim='i')` appends
columns, `xr.concat(..., dim='j')` appends rows.  Renames and `.drop`
calls only touch metadata (dimension/coordinate names), not values, so
they do not appear in the value-level model.
-/

/-- A 2-D coordinate array, list of j-rows each holding i-values. -/
abbrev Grid2 : Type := List (List ℚ)

/-- A 3-D vertex array with dims (j, i, vertices); each cell holds 4 corner values. -/
abbrev Grid3 : Type := List (List (List ℚ))

/-- The dataset handed to `make_bounds`: cell-center coordinates `lat`, `lon`
(dims (j,i)) and per-cell vertex coordinates (dims (j,i,vertices)). -/
structure GridDS where
  lat : Grid2
  lon : Grid2
  vertices_latitude : Grid3
  vertices_longitude : Grid3

/-- The grid geometry returned by `make_bounds`: centers (`lat`, `lon`) and the
corner meshes (`lat_b`, `lon_b`). -/
structure SourceGeometry where
  lat : Grid2
  lon : Grid2
  lat_b : Grid2
  lon_b : Grid2

/-- The polar clamp of `make_bounds` lines 55-56:
`lat_b.where(lat_b<90.0, 90.0)` keeps values `< 90` and replaces the rest by
`90`; then `.where(lat_b>-90.0, -90.0)` keeps values `> -90` and replaces the
rest by `-90`. -/
def clampLat (q : ℚ) : ℚ :=
  if (if q < 90 then q else 90) > -90 then (if q < 90 then q else 90) else -90

/-- One row of the corner mesh built at lines 44/46: the `vertices=0` value of
every cell of the row, then the `vertices=1` value of the row's last cell
(`isel(vertices=1, i=-1)` appended along dim `i`). -/
def cornerRow0 (row : List (List ℚ)) : List ℚ :=
  row.map (fun cell => cell.getD 0 0) ++ [(row.getLastD []).getD 1 0]

/-- The extra corner row appended along dim `j` at lines 45/47: the
`vertices=3` value of every cell of the last row, then the `vertices=2` value
of the last row's last cell. -/
def cornerRowLast (v : Grid3) : List ℚ :=
  (v.getLastD []).map (fun cell => cell.getD 3 0) ++ [((v.getLastD []).getLastD []).getD 2 0]

/-- The full (rows+1) x (cols+1) corner mesh assembled from a vertex array by
`make_bounds` lines 44-47, before the `j`-slice and the polar clamp. -/
def boundsAssemble (v : Grid3) : Grid2 :=
  v.map cornerRow0 ++ [cornerRowLast v]

/-- The model list of `regrid_functions.py` line 35: the models whose grid
carries a duplicated final j-row. -/
def knownModels : List String := ["NorESM2-LM", "NorESM2-MM"]

/-- Lines 34-37: the effective row count `ny` — decremented exactly for a
model of the known list with `seaice` set. -/
def effRows (modelname : String) (ds : GridDS) (seaice : Bool) : Nat :=
  if modelname ∈ knownModels ∧ seaice = true then ds.lat.length - 1 else ds.lat.length

/-- `make_bounds(modelname, ds, seaice)` of `regrid_functions.py` lines 17-57.
`ny, nx = ds.lat.shape`; for NorESM2-LM / NorESM2-MM with `seaice` the last
j-row is dropped (`ny = ny - 1`); centers are sliced to `j=0..ny`, the corner
meshes assembled from the full vertex arrays, sliced to `j=0..ny+1`, and
corner latitudes clamped to [-90, 90]. -/
def make_bounds (modelname : String) (ds : GridDS) (seaice : Bool) : SourceGeometry :=
  let ny := effRows modelname ds seaice
  let lat_model := ds.lat.take ny
  let lon_model := ds.lon.take ny
  let lon_b0 := boundsAssemble ds.vertices_longitude
  let lat_b0 := boundsAssemble ds.vertices_latitude
  let lon_b := lon_b0.take (ny + 1)
  let lat_b := (lat_b0.take (ny + 1)).map (fun row => row.map clampLat)
  ⟨lat_model, lon_model, lat_b, lon_b⟩

/-- The regular target-grid dataset handed to `mk_outgrid`: 1-D center
coordinates and per-cell 2-element bound pairs for each axis. -/
structure OutDS where
  lat : List ℚ
  lon : List ℚ
  lat_bnds : List (List ℚ)
  lon_bnds : List (List ℚ)

/-- The output grid returned by `mk_outgrid`: 1-D centers and 1-D edge vectors. -/
structure OutGrid where
  lat : List ℚ
  lon : List ℚ
  lat_b : List ℚ
  lon_b : List ℚ

/-- `mk_outgrid(ds)` of `regrid_functions.py` lines 59-77: for each axis the
edge vector concatenates the `bnds=0` value of every cell with the `bnds=1`
value of the last cell (`isel(lat=-1).isel(bnds=1)`); centers pass through
(the renames only change dimension names). -/
def mk_outgrid (ds : OutDS) : OutGrid :=
  let lat_b := ds.lat_bnds.map (fun p => p.getD 0 0) ++ [(ds.lat_bnds.getLastD []).getD 1 0]
  let lon_b := ds.lon_bnds.map (fun p => p.getD 0 0) ++ [(ds.lon_bnds.getLastD []).getD 1 0]
  ⟨ds.lat, ds.lon, lat_b, lon_b⟩

/-- Python run-time errors that the modelled functions can raise. -/
inductive PyError where
  | nameError : String → PyError
  | unboundLocalError : String → PyError
  | valueError : String → PyError
deriving DecidableEq, Repr

/-- The names bound at module level in `regrid_functions.py`: the four
imports and the three function definitions.  No module-level variable named
`modelname` exists. -/
def regridModuleNames : List String :=
  ["xr", "xe", "np", "warnings", "make_bounds", "mk_outgrid", "make_regridder"]

/-- The local names bound in the body of `make_regridder` when line 99 runs:
its five parameters (`ds_in` and `regridder` are assigned only later). -/
def makeRegridderLocalNames : List String :=
  ["ds", "outgrid", "grid_weight_path", "regrid_mode", "reuse_weights"]

/-- Python name resolution for a free variable read: a name that is neither a
bound local nor a module-level global raises `NameError`.  The value of a
string-valued variable would come from the binding; none of the bindings of
`regrid_functions.py` is a string, so resolution of a string variable can
only fail. -/
def resolveStrName (n : String) (localNames globalNames : List String) : Except PyError String :=
  if n ∈ localNames ∨ n ∈ globalNames then
    Except.error (PyError.valueError n)
  else
    Except.error (PyError.nameError n)

/-- The value `make_regridder` would return: the source geometry from
`make_bounds` plus everything `xe.Regridder` (the external weight engine) is
called with.  The weight computation itself is external library code. -/
structure Regridder where
  ds_in : SourceGeometry
  outgrid : OutGrid
  filename : String
  regrid_mode : String
  reuse_weights : Bool

/-- `make_regridder(ds, outgrid, grid_weight_path, regrid_mode, reuse_weights)`
of `regrid_functions.py` lines 79-103.  Line 99 reads the free variable
`modelname`, which is neither a parameter nor a module-level name. -/
def make_regridder (ds : GridDS) (outgrid : OutGrid) (grid_weight_path : String)
    (regrid_mode : String) (reuse_weights : Bool) : Except PyError Regridder := do
  let modelname ← resolveStrName "modelname" makeRegridderLocalNames regridModuleNames
  let ds_in := make_bounds modelname ds false
  Except.ok ⟨ds_in, outgrid, grid_weight_path ++ "model_to_grid_" ++ regrid_mode ++ ".nc",
             regrid_mode, reuse_weights⟩

/-!
Embedding of `functions/general_util_funcs.py`.

`consistent_naming` only inspects and rewrites coordinate / dimension names,
so a dataset is modelled by its coordinate-name list and dimension-name list.
`ds.rename({old: new})` rewrites the name in both lists; xarray's
`Dataset._rename_vars` raises `ValueError` when the new name collides with an
existing variable, which we model as a collision on the coordinate list
(dimension-only renames merge silently in the xarray version this code
targets).
-/

/-- The coordinate and dimension names of an xarray Dataset, which is all
`consistent_naming` reads or writes. -/
structure NamedDS where
  coords : List String
  dims : List String
deriving DecidableEq, Repr

/-- Rewrite one name in a name list, as `ds.rename({old: new})` does. -/
def renameNames (old new : String) (l : List String) : List String :=
  l.map (fun s => if s = old then new else s)

/-- `ds.rename({old: new})`: raises `ValueError` if the new name collides with
an existing variable; otherwise rewrites the name in the coordinate and
dimension lists. -/
def dsRename (old new : String) (ds : NamedDS) : Except PyError NamedDS :=
  if old ∈ ds.coords ∧ new ∈ ds.coords then
    Except.error (PyError.valueError new)
  else
    Except.ok ⟨renameNames old new ds.coords, renameNames old new ds.dims⟩

/-- One guarded rename step of `consistent_naming`: if the condition holds,
rename, else leave the dataset unchanged. -/
def condRename (c : NamedDS → Prop) [DecidablePred c] (old new : String)
    (ds : NamedDS) : Except PyError NamedDS :=
  if c ds then dsRename old new ds else Except.ok ds

/-- `consistent_naming(ds)` of `general_util_funcs.py` lines 16-49: seven
guarded renames — `latitude`→`lat` and `longitude`→`lon` when the target coord
is absent, then `region`→`basin`, `x`→`i`, `y`→`j`, `depth`→`lev`,
`bounds`→`bnds` whenever the old name is a dimension. -/
def consistent_naming (ds : NamedDS) : Except PyError NamedDS := do
  let ds ← condRename (fun d => "latitude" ∈ d.coords ∧ "lat" ∉ d.coords) "latitude" "lat" ds
  let ds ← condRename (fun d => "longitude" ∈ d.coords ∧ "lon" ∉ d.coords) "longitude" "lon" ds
  let ds ← condRename (fun d => "region" ∈ d.dims) "region" "basin" ds
  let ds ← condRename (fun d => "x" ∈ d.dims) "x" "i" ds
  let ds ← condRename (fun d => "y" ∈ d.dims) "y" "j" ds
  let ds ← condRename (fun d => "depth" ∈ d.dims) "depth" "lev" ds
  let ds ← condRename (fun d => "bounds" ∈ d.dims) "bounds" "bnds" ds
  Except.ok ds

/-- An ocean field for `volumeavg_ocn`: its coordinate names, its data on a
(sigma, j, i) grid, and its attributes.  The attribute dictionary plays no
role in whether the function returns or raises. -/
structure OcnField where
  coords : List String
  data : Grid3

/-- Elementwise product of two 2-D arrays (`xarray` broadcasting not needed:
the source multiplies arrays on the same (j,i) grid). -/
def mul2 (a b : Grid2) : Grid2 :=
  List.zipWith (fun ra rb => List.zipWith (· * ·) ra rb) a b

/-- Elementwise sum of two 2-D arrays. -/
def add2 (a b : Grid2) : Grid2 :=
  List.zipWith (fun ra rb => List.zipWith (· + ·) ra rb) a b

/-- Elementwise product of two 3-D arrays. -/
def mul3 (a b : Grid3) : Grid3 :=
  List.zipWith mul2 a b

/-- `.sum(dim='sigma')`: collapse the leading (sigma) axis of a 3-D array by
elementwise addition. -/
def sumSigma (a : Grid3) : Grid2 :=
  match a with
  | [] => []
  | h :: t => t.foldl add2 h

/-- `.sum(dim=('j','i'))`: the total of a 2-D array. -/
def sumAll (g : Grid2) : ℚ :=
  (g.map (fun r => r.sum)).sum

/-- `volumeavg_ocn(ds, dp, pweight)` of `general_util_funcs.py` lines 436-461
with `pweight` supplied (the `isinstance` fallback opens files on cluster
paths and is outside this model).  The local `ds_out` is assigned only inside
the `if 'sigma' in ds.coords:` branch; the function body then reads `ds_out`
unconditionally, so when the branch is not taken Python raises
`UnboundLocalError` at the first reference to `ds_out`. -/
def volumeavg_ocn (ds dp : OcnField) (pweight : Grid2) : Except PyError ℚ :=
  let ds_out : Option ℚ :=
    if "sigma" ∈ ds.coords then
      let ds2 := sumSigma (mul3 ds.data dp.data)
      let dpweight := sumSigma dp.data
      some (sumAll (mul2 pweight ds2) / sumAll (mul2 pweight dpweight))
    else
      none
  match ds_out with
  | some v => Except.ok v
  | none => Except.error (PyError.unboundLocalError "ds_out")

/-! ### Shape predicates and spec-side descriptions -/

/-- `g` is an `R` x `C` 2-D array. -/
def isGrid (R C : Nat) (g : Grid2) : Prop :=
  g.length = R ∧ ∀ row ∈ g, row.length = C

/-- `v` is an `R` x `C` x `4` vertex array. -/
def isVert (R C : Nat) (v : Grid3) : Prop :=
  v.length = R ∧ ∀ row ∈ v, row.length = C ∧ ∀ cell ∈ row, cell.length = 4

instance (R C : Nat) (g : Grid2) : Decidable (isGrid R C g) := by
  unfold isGrid; infer_instance

instance (R C : Nat) (v : Grid3) : Decidable (isVert R C v) := by
  unfold isVert; infer_instance

/-- Entry `(r, c, k)` of a vertex array, with out-of-range defaulting. -/
def vget (v : Grid3) (r c k : Nat) : ℚ :=
  ((v.getD r []).getD c []).getD k 0

/-- The corner value the spec prescribes for mesh position `(r, c)` over an
`R` x `C` vertex array: vertex 0 (lower-left) of cell `(r, c)` in the main
block, vertex 1 (lower-right) of the last column for the extra column,
vertex 3 (upper-left) of the last row for the extra row, and vertex 2
(upper-right) of the last cell for the final corner. -/
def cornerOf (v : Grid3) (R C r c : Nat) : ℚ :=
  if r < R then
    if c < C then vget v r c 0 else vget v r (C - 1) 1
  else
    if c < C then vget v (R - 1) c 3 else vget v (R - 1) (C - 1) 2

/-- The spec's regular-grid assumption on an axis' bound pairs: every pair is
strictly ordered. -/
def strictlyOrderedBnds (bnds : List (List ℚ)) : Prop :=
  ∀ p ∈ bnds, p.getD 0 0 < p.getD 1 0

instance (bnds : List (List ℚ)) : Decidable (strictlyOrderedBnds bnds) := by
  unfold strictlyOrderedBnds; infer_instance

/-- The canonical coordinate / dimension names `consistent_naming` rewrites to. -/
def canonicalNames : List String := ["lat", "lon", "basin", "i", "j", "lev", "bnds"]

/-! ### List access helper lemmas -/

theorem getD_take_of_lt {α : Type*} (l : List α) (n i : Nat) (d : α)
    (hi : i < n) (hl : i < l.length) : (l.take n).getD i d = l.getD i d := by
  rw [List.getD_eq_getElem _ _ (by simp; omega), List.getD_eq_getElem _ _ hl]
  rw [List.getElem_take]

theorem getD_map_of_lt {α β : Type*} (f : α → β) (l : List α) (i : Nat)
    (d : β) (d2 : α) (h : i < l.length) : (l.map f).getD i d = f (l.getD i d2) := by
  rw [List.getD_eq_getElem _ _ (by simpa), List.getD_eq_getElem _ _ h, List.getElem_map]

theorem getLastD_eq_getD {α : Type*} (l : List α) (d : α) (h : l ≠ []) :
    l.getLastD d = l.getD (l.length - 1) d := by
  cases l with
  | nil => simp at h
  | cons a t =>
    rw [List.getLastD_eq_getLast?, List.getLast?_eq_getLast _ h]
    rw [List.getD_eq_getElem _ _ (by simp)]
    simp [List.getLast_eq_getElem]

theorem getD_append_sing {α : Type*} (l : List α) (x d : α) :
    (l ++ [x]).getD l.length d = x := by
  rw [List.getD_append_right _ _ _ _ (Nat.le_refl _)]
  simp

theorem getD_mem {α : Type*} (l : List α) (i : Nat) (d : α) (h : i < l.length) :
    l.getD i d ∈ l := by
  rw [List.getD_eq_getElem _ _ h]
  exact List.getElem_mem h

/-! ### Facts about `make_bounds` -/

/-- The effective row count never exceeds the input row count. -/
theorem effRows_le (m : String) (ds : GridDS) (si : Bool) :
    effRows m ds si ≤ ds.lat.length := by
  unfold effRows
  split <;> omega

/-- The trimmed center array has exactly `effRows` rows. -/
theorem make_bounds_lat_length (m : String) (ds : GridDS) (si : Bool) :
    (make_bounds m ds si).lat.length = effRows m ds si := by
  have h := effRows_le m ds si
  unfold make_bounds
  simp only [List.length_take]
  omega

/-- The four fields of `make_bounds`, written out. -/
theorem make_bounds_eq (m : String) (ds : GridDS) (si : Bool) :
    make_bounds m ds si =
      ⟨ds.lat.take (effRows m ds si),
       ds.lon.take (effRows m ds si),
       ((boundsAssemble ds.vertices_latitude).take (effRows m ds si + 1)).map
         (fun row => row.map clampLat),
       (boundsAssemble ds.vertices_longitude).take (effRows m ds si + 1)⟩ := rfl

/-- Every corner latitude returned by `make_bounds` is the clamp of some
assembled value, hence lies in [-90, 90]. -/
theorem clampLat_bounds (q : ℚ) : -90 ≤ clampLat q ∧ clampLat q ≤ 90 := by
  unfold clampLat
  split_ifs with h1 h2 <;> exact ⟨by linarith, by linarith⟩

/-- clampLat replaces values above 90 by 90. -/
theorem clampLat_high (q : ℚ) (h : 90 < q) : clampLat q = 90 := by
  unfold clampLat
  split_ifs with h1 h2 <;> linarith

/-- clampLat replaces values below -90 by -90. -/
theorem clampLat_low (q : ℚ) (h : q < -90) : clampLat q = -90 := by
  unfold clampLat
  split_ifs with h1 h2 <;> linarith

/-- clampLat leaves values in the open interval unchanged. -/
theorem clampLat_id (q : ℚ) (h1 : -90 < q) (h2 : q < 90) : clampLat q = q := by
  unfold clampLat
  split_ifs
  all_goals linarith

/-- All entries of the returned corner-latitude mesh lie in [-90, 90], for any
input whatsoever. -/
theorem make_bounds_lat_b_bounded (m : String) (ds : GridDS) (si : Bool) :
    ∀ row ∈ (make_bounds m ds si).lat_b, ∀ q ∈ row, -90 ≤ q ∧ q ≤ 90 := by
  intro row hrow q hq
  rw [make_bounds_eq] at hrow
  obtain ⟨row0, _, hre⟩ := List.mem_map.1 hrow
  rw [← hre] at hq
  obtain ⟨q0, _, hqe⟩ := List.mem_map.1 hq
  rw [← hqe]
  exact clampLat_bounds q0

/-- Shape of the assembled corner mesh: one row and one column more than the
vertex array. -/
theorem boundsAssemble_shape (v : Grid3) (R C : Nat) (hR : 0 < R)
    (hv : isVert R C v) : isGrid (R + 1) (C + 1) (boundsAssemble v) := by
  obtain ⟨hlen, hrow⟩ := hv
  have hvne : v ≠ [] := by
    intro h; rw [h] at hlen; simp at hlen; omega
  constructor
  · rw [boundsAssemble, List.length_append, List.length_map, hlen]
    rfl
  · intro row hmem
    rw [boundsAssemble, List.mem_append] at hmem
    rcases hmem with hmem | hmem
    · obtain ⟨vrow, hvrow, hre⟩ := List.mem_map.1 hmem
      rw [← hre, cornerRow0, List.length_append, List.length_map, (hrow vrow hvrow).1]
      rfl
    · rw [List.mem_singleton] at hmem
      subst hmem
      have hlast : v.getLastD [] ∈ v := by
        rw [getLastD_eq_getD _ _ hvne]
        exact getD_mem _ _ _ (by omega)
      rw [cornerRowLast, List.length_append, List.length_map, (hrow _ hlast).1]
      rfl

/-- Entry `(r, c)` of the assembled corner mesh is the vertex value the spec
prescribes. -/
theorem boundsAssemble_getD (v : Grid3) (R C : Nat) (hR : 0 < R) (hC : 0 < C)
    (hv : isVert R C v) (r c : Nat) (hr : r < R + 1) (hc : c < C + 1) :
    ((boundsAssemble v).getD r []).getD c 0 = cornerOf v R C r c := by
  obtain ⟨hlen, hrow⟩ := hv
  have hvne : v ≠ [] := by
    intro h; rw [h] at hlen; simp at hlen; omega
  have hlast_eq : v.getLastD [] = v.getD (R - 1) [] := by
    rw [getLastD_eq_getD _ _ hvne, hlen]
  have hlast_mem : v.getD (R - 1) [] ∈ v := getD_mem _ _ _ (by omega)
  rcases Nat.lt_or_ge r R with hrR | hrR
  · -- main block rows: `cornerRow0` of row r
    have hmaplen : (v.map cornerRow0).length = R := by rw [List.length_map, hlen]
    have h1 : ((boundsAssemble v).getD r []) = cornerRow0 (v.getD r []) := by
      rw [boundsAssemble, List.getD_append _ _ _ _ (by rw [hmaplen]; exact hrR)]
      exact getD_map_of_lt _ _ _ _ [] (by omega)
    rw [h1]
    have hrmem : v.getD r [] ∈ v := getD_mem _ _ _ (by omega)
    have hrlen : (v.getD r []).length = C := (hrow _ hrmem).1
    have hrne : v.getD r [] ≠ [] := by
      intro h; rw [h] at hrlen; simp at hrlen; omega
    have hrmaplen : ((v.getD r []).map (fun cell => cell.getD 0 0)).length = C := by
      rw [List.length_map, hrlen]
    rcases Nat.lt_or_ge c C with hcC | hcC
    · rw [cornerRow0, List.getD_append _ _ _ _ (by rw [hrmaplen]; exact hcC)]
      rw [getD_map_of_lt _ _ _ _ [] (by omega)]
      rw [cornerOf, if_pos hrR, if_pos hcC, vget]
    · have hcc : c = C := by omega
      rw [hcc, cornerRow0, ← hrmaplen, getD_append_sing]
      rw [getLastD_eq_getD _ _ hrne, hrlen]
      rw [cornerOf, if_pos hrR, if_neg (by omega), vget, hrmaplen]
  · -- the appended row: `cornerRowLast`
    have hrr : r = R := by omega
    have h1 : ((boundsAssemble v).getD R []) = cornerRowLast v := by
      rw [boundsAssemble]
      have hlen2 : (v.map cornerRow0).length = R := by rw [List.length_map, hlen]
      rw [← hlen2, getD_append_sing]
    rw [hrr, h1, cornerRowLast, hlast_eq]
    have hllen : (v.getD (R - 1) []).length = C := (hrow _ hlast_mem).1
    have hlne : v.getD (R - 1) [] ≠ [] := by
      intro h; rw [h] at hllen; simp at hllen; omega
    have hlmaplen : ((v.getD (R - 1) []).map (fun cell => cell.getD 3 0)).length = C := by
      rw [List.length_map, hllen]
    rcases Nat.lt_or_ge c C with hcC | hcC
    · rw [List.getD_append _ _ _ _ (by rw [hlmaplen]; exact hcC)]
      rw [getD_map_of_lt _ _ _ _ [] (by omega)]
      rw [cornerOf, if_neg (by omega), if_pos hcC, vget]
    · have hcc : c = C := by omega
      rw [hcc, ← hlmaplen, getD_append_sing]
      rw [getLastD_eq_getD _ _ hlne, hllen]
      rw [cornerOf, if_neg (by omega), if_neg (by omega), vget, hlmaplen]


/-- Shape of the geometry built by `make_bounds`: the trimmed centers are
`effRows` x `C` and both corner meshes are `(effRows + 1)` x `(C + 1)`. -/
theorem make_bounds_shape (m : String) (ds : GridDS) (si : Bool) (R C : Nat)
    (hR : 0 < R) (hlat : isGrid R C ds.lat) (hlon : isGrid R C ds.lon)
    (hvlat : isVert R C ds.vertices_latitude) (hvlon : isVert R C ds.vertices_longitude) :
    isGrid (effRows m ds si) C (make_bounds m ds si).lat ∧
    isGrid (effRows m ds si) C (make_bounds m ds si).lon ∧
    isGrid (effRows m ds si + 1) (C + 1) (make_bounds m ds si).lat_b ∧
    isGrid (effRows m ds si + 1) (C + 1) (make_bounds m ds si).lon_b := by
  have hle : effRows m ds si ≤ ds.lat.length := effRows_le m ds si
  have hRlen : ds.lat.length = R := hlat.1
  have hAlat := boundsAssemble_shape ds.vertices_latitude R C hR hvlat
  have hAlon := boundsAssemble_shape ds.vertices_longitude R C hR hvlon
  rw [make_bounds_eq]
  refine ⟨⟨?_, ?_⟩, ⟨?_, ?_⟩, ⟨?_, ?_⟩, ⟨?_, ?_⟩⟩
  · simp only [List.length_take]; omega
  · intro row hmem
    exact hlat.2 row (List.mem_of_mem_take hmem)
  · simp only [List.length_take]
    rw [hlon.1]; omega
  · intro row hmem
    exact hlon.2 row (List.mem_of_mem_take hmem)
  · simp only [List.length_map, List.length_take]
    rw [hAlat.1]; omega
  · intro row hmem
    obtain ⟨row0, hr0, hre⟩ := List.mem_map.1 hmem
    rw [← hre, List.length_map]
    exact hAlat.2 row0 (List.mem_of_mem_take hr0)
  · simp only [List.length_take]
    rw [hAlon.1]; omega
  · intro row hmem
    exact hAlon.2 row (List.mem_of_mem_take hmem)

/-- Entry `(r, c)` of the corner meshes of `make_bounds`: the longitude mesh
holds the assembled vertex value, the latitude mesh its clamp. -/
theorem make_bounds_getD (m : String) (ds : GridDS) (si : Bool) (R C : Nat)
    (hR : 0 < R) (hC : 0 < C) (hlat : ds.lat.length = R)
    (hvlat : isVert R C ds.vertices_latitude) (hvlon : isVert R C ds.vertices_longitude)
    (r c : Nat) (hr : r < effRows m ds si + 1) (hc : c < C + 1) :
    ((make_bounds m ds si).lon_b.getD r []).getD c 0 =
      cornerOf ds.vertices_longitude R C r c ∧
    ((make_bounds m ds si).lat_b.getD r []).getD c 0 =
      clampLat (cornerOf ds.vertices_latitude R C r c) := by
  have hle : effRows m ds si ≤ R := hlat ▸ effRows_le m ds si
  have hrR : r < R + 1 := by omega
  have hAlat := boundsAssemble_shape ds.vertices_latitude R C hR hvlat
  have hAlon := boundsAssemble_shape ds.vertices_longitude R C hR hvlon
  rw [make_bounds_eq]
  constructor
  · rw [getD_take_of_lt _ _ _ _ hr (by rw [hAlon.1]; omega)]
    exact boundsAssemble_getD ds.vertices_longitude R C hR hC hvlon r c hrR hc
  · have htlen : ((boundsAssemble ds.vertices_latitude).take (effRows m ds si + 1)).length =
        effRows m ds si + 1 := by
      simp only [List.length_take]
      rw [hAlat.1]; omega
    rw [getD_map_of_lt _ _ _ _ [] (by rw [htlen]; exact hr)]
    rw [getD_take_of_lt _ _ _ _ hr (by rw [hAlat.1]; omega)]
    have hrowlen : ((boundsAssemble ds.vertices_latitude).getD r []).length = C + 1 :=
      hAlat.2 _ (getD_mem _ _ _ (by rw [hAlat.1]; omega))
    rw [getD_map_of_lt _ _ _ _ 0 (by rw [hrowlen]; exact hc)]
    rw [boundsAssemble_getD ds.vertices_latitude R C hR hC hvlat r c hrR hc]

/-! ### Facts about `mk_outgrid` -/

/-- The edge vector built for one axis: length N+1, entries 0..N-1 are the
lower bounds, entry N is the last cell's upper bound. -/
theorem edgeVector_spec (bnds : List (List ℚ)) (h : 0 < bnds.length) :
    (bnds.map (fun p => p.getD 0 0) ++ [(bnds.getLastD []).getD 1 0]).length = bnds.length + 1 ∧
    (∀ k, k < bnds.length →
      (bnds.map (fun p => p.getD 0 0) ++ [(bnds.getLastD []).getD 1 0]).getD k 0 =
        (bnds.getD k []).getD 0 0) ∧
    (bnds.map (fun p => p.getD 0 0) ++ [(bnds.getLastD []).getD 1 0]).getD bnds.length 0 =
      (bnds.getD (bnds.length - 1) []).getD 1 0 := by
  have hne : bnds ≠ [] := by
    intro he; rw [he] at h; simp at h
  have hmaplen : (bnds.map (fun p => p.getD 0 0)).length = bnds.length := List.length_map _ _
  refine ⟨?_, ?_, ?_⟩
  · rw [List.length_append, hmaplen]; rfl
  · intro k hk
    rw [List.getD_append _ _ _ _ (by rw [hmaplen]; exact hk)]
    exact getD_map_of_lt _ _ _ _ [] hk
  · rw [← hmaplen, getD_append_sing, getLastD_eq_getD _ _ hne, hmaplen]

/-! ### Facts about `consistent_naming` -/

theorem mem_renameNames_of_ne (a old new : String) (l : List String)
    (hao : a ≠ old) (han : a ≠ new) : a ∈ renameNames old new l ↔ a ∈ l := by
  unfold renameNames
  constructor
  · intro hm
    obtain ⟨b, hb, he⟩ := List.mem_map.1 hm
    by_cases hbo : b = old
    · rw [if_pos hbo] at he; exact absurd he.symm han
    · rw [if_neg hbo] at he; exact he ▸ hb
  · intro hm
    refine List.mem_map.2 ⟨a, hm, ?_⟩
    rw [if_neg hao]

theorem not_mem_renameNames (old new : String) (hne : old ≠ new) (l : List String) :
    old ∉ renameNames old new l := by
  intro hm
  obtain ⟨b, hb, he⟩ := List.mem_map.1 (by exact hm)
  by_cases hbo : b = old
  · rw [if_pos hbo] at he; exact hne he.symm
  · rw [if_neg hbo] at he; exact hbo he

theorem condRename_not (c : NamedDS → Prop) [DecidablePred c] (old new : String)
    (d : NamedDS) (h : ¬ c d) : condRename c old new d = Except.ok d := by
  unfold condRename; rw [if_neg h]

theorem except_bind_ok {ε : Type u} {α β : Type v} (a : α) (f : α → Except ε β) :
    (Except.ok a : Except ε α) >>= f = f a := rfl

theorem except_bind_error {ε : Type u} {α β : Type v} (e : ε) (f : α → Except ε β) :
    (Except.error e : Except ε α) >>= f = Except.error e := rfl

/-- A successful guarded rename step does not change membership of names
distinct from both the old and the new name. -/
theorem condRename_ok_mem (c : NamedDS → Prop) [DecidablePred c] (old new : String)
    (d d' : NamedDS) (h : condRename c old new d = Except.ok d') (a : String)
    (hao : a ≠ old) (han : a ≠ new) :
    (a ∈ d'.coords ↔ a ∈ d.coords) ∧ (a ∈ d'.dims ↔ a ∈ d.dims) := by
  by_cases hc : c d
  · unfold condRename at h
    rw [if_pos hc] at h
    unfold dsRename at h
    by_cases hcc : old ∈ d.coords ∧ new ∈ d.coords
    · rw [if_pos hcc] at h; exact Except.noConfusion h
    · rw [if_neg hcc] at h
      injection h with h2
      subst h2
      exact ⟨mem_renameNames_of_ne a old new _ hao han,
             mem_renameNames_of_ne a old new _ hao han⟩
  · unfold condRename at h
    rw [if_neg hc] at h
    injection h with h2
    subst h2
    exact ⟨Iff.rfl, Iff.rfl⟩

/-- Transport a coords-implication through a successful rename step that
involves neither name. -/
theorem condRename_ok_imp (c : NamedDS → Prop) [DecidablePred c] (old new a b : String)
    (d d' : NamedDS) (h : condRename c old new d = Except.ok d')
    (hao : a ≠ old) (han : a ≠ new) (hbo : b ≠ old) (hbn : b ≠ new)
    (himp : a ∈ d.coords → b ∈ d.coords) : a ∈ d'.coords → b ∈ d'.coords := by
  intro hm
  have ha := (condRename_ok_mem c old new d d' h a hao han).1
  have hb := (condRename_ok_mem c old new d d' h b hbo hbn).1
  exact hb.mpr (himp (ha.mp hm))

/-- Transport dim-absence through a successful rename step that involves
neither name. -/
theorem condRename_ok_notdims (c : NamedDS → Prop) [DecidablePred c] (old new a : String)
    (d d' : NamedDS) (h : condRename c old new d = Except.ok d')
    (hao : a ≠ old) (han : a ≠ new) (hnd : a ∉ d.dims) : a ∉ d'.dims := by
  intro hm
  exact hnd (((condRename_ok_mem c old new d d' h a hao han).2).mp hm)

/-- A dimension-guarded rename step removes the old dimension name. -/
theorem condRename_dims_trim (old new : String) (hne : old ≠ new) (d d' : NamedDS)
    (h : condRename (fun x => old ∈ x.dims) old new d = Except.ok d') : old ∉ d'.dims := by
  by_cases hc : old ∈ d.dims
  · unfold condRename at h
    rw [if_pos hc] at h
    unfold dsRename at h
    by_cases hcc : old ∈ d.coords ∧ new ∈ d.coords
    · rw [if_pos hcc] at h; exact Except.noConfusion h
    · rw [if_neg hcc] at h
      injection h with h2
      subst h2
      exact not_mem_renameNames old new hne _
  · unfold condRename at h
    rw [if_neg hc] at h
    injection h with h2
    subst h2
    exact hc

/-- A coords-guarded rename step establishes "old present implies target
present" (either the old name is gone, or the target was already there). -/
theorem condRename_coords_establishes (old tgt : String) (hne : old ≠ tgt) (d d' : NamedDS)
    (h : condRename (fun x => old ∈ x.coords ∧ tgt ∉ x.coords) old tgt d = Except.ok d') :
    old ∈ d'.coords → tgt ∈ d'.coords := by
  by_cases hc : old ∈ d.coords ∧ tgt ∉ d.coords
  · unfold condRename at h
    rw [if_pos hc] at h
    unfold dsRename at h
    by_cases hcc : old ∈ d.coords ∧ tgt ∈ d.coords
    · rw [if_pos hcc] at h; exact Except.noConfusion h
    · rw [if_neg hcc] at h
      injection h with h2
      subst h2
      intro hmem
      exact absurd hmem (not_mem_renameNames old tgt hne _)
  · unfold condRename at h
    rw [if_neg hc] at h
    injection h with h2
    subst h2
    intro hmem
    by_cases ht : tgt ∈ d.coords
    · exact ht
    · exact absurd ⟨hmem, ht⟩ hc

/-- A dataset on which none of the seven rename guards can fire any more. -/
def settled (d : NamedDS) : Prop :=
  ("latitude" ∈ d.coords → "lat" ∈ d.coords) ∧
  ("longitude" ∈ d.coords → "lon" ∈ d.coords) ∧
  "region" ∉ d.dims ∧ "x" ∉ d.dims ∧ "y" ∉ d.dims ∧ "depth" ∉ d.dims ∧ "bounds" ∉ d.dims

/-- On a settled dataset `consistent_naming` performs no rename at all. -/
theorem settled_fix (d : NamedDS) (h : settled d) : consistent_naming d = Except.ok d := by
  obtain ⟨h1, h2, h3, h4, h5, h6, h7⟩ := h
  have n1 : ¬ ("latitude" ∈ d.coords ∧ "lat" ∉ d.coords) := fun hc => hc.2 (h1 hc.1)
  have n2 : ¬ ("longitude" ∈ d.coords ∧ "lon" ∉ d.coords) := fun hc => hc.2 (h2 hc.1)
  unfold consistent_naming
  rw [condRename_not _ _ _ _ n1]
  simp only [except_bind_ok]
  rw [condRename_not _ _ _ _ n2]
  simp only [except_bind_ok]
  rw [condRename_not _ _ _ _ h3]
  simp only [except_bind_ok]
  rw [condRename_not _ _ _ _ h4]
  simp only [except_bind_ok]
  rw [condRename_not _ _ _ _ h5]
  simp only [except_bind_ok]
  rw [condRename_not _ _ _ _ h6]
  simp only [except_bind_ok]
  rw [condRename_not _ _ _ _ h7]
  simp only [except_bind_ok]

/-- A successful run of `consistent_naming` leaves the dataset settled: every
rename guard is dead on the result. -/
theorem consistent_naming_settled (d d' : NamedDS)
    (h : consistent_naming d = Except.ok d') : settled d' := by
  unfold consistent_naming at h
  cases e1 : condRename (fun x => "latitude" ∈ x.coords ∧ "lat" ∉ x.coords) "latitude" "lat" d with
  | error e => rw [e1, except_bind_error] at h; exact Except.noConfusion h
  | ok d1 =>
  rw [e1] at h
  simp only [except_bind_ok] at h
  cases e2 : condRename (fun x => "longitude" ∈ x.coords ∧ "lon" ∉ x.coords) "longitude" "lon" d1 with
  | error e => rw [e2, except_bind_error] at h; exact Except.noConfusion h
  | ok d2 =>
  rw [e2] at h
  simp only [except_bind_ok] at h
  cases e3 : condRename (fun x => "region" ∈ x.dims) "region" "basin" d2 with
  | error e => rw [e3, except_bind_error] at h; exact Except.noConfusion h
  | ok d3 =>
  rw [e3] at h
  simp only [except_bind_ok] at h
  cases e4 : condRename (fun x => "x" ∈ x.dims) "x" "i" d3 with
  | error e => rw [e4, except_bind_error] at h; exact Except.noConfusion h
  | ok d4 =>
  rw [e4] at h
  simp only [except_bind_ok] at h
  cases e5 : condRename (fun x => "y" ∈ x.dims) "y" "j" d4 with
  | error e => rw [e5, except_bind_error] at h; exact Except.noConfusion h
  | ok d5 =>
  rw [e5] at h
  simp only [except_bind_ok] at h
  cases e6 : condRename (fun x => "depth" ∈ x.dims) "depth" "lev" d5 with
  | error e => rw [e6, except_bind_error] at h; exact Except.noConfusion h
  | ok d6 =>
  rw [e6] at h
  simp only [except_bind_ok] at h
  cases e7 : condRename (fun x => "bounds" ∈ x.dims) "bounds" "bnds" d6 with
  | error e => rw [e7, except_bind_error] at h; exact Except.noConfusion h
  | ok d7 =>
  rw [e7] at h
  simp only [except_bind_ok] at h
  injection h with h2
  subst h2
  refine ⟨?_, ?_, ?_, ?_, ?_, ?_, ?_⟩
  · -- latitude guard dead
    have q := condRename_coords_establishes "latitude" "lat" (by decide) d d1 e1
    have q := condRename_ok_imp _ "longitude" "lon" "latitude" "lat" d1 d2 e2
      (by decide) (by decide) (by decide) (by decide) q
    have q := condRename_ok_imp _ "region" "basin" "latitude" "lat" d2 d3 e3
      (by decide) (by decide) (by decide) (by decide) q
    have q := condRename_ok_imp _ "x" "i" "latitude" "lat" d3 d4 e4
      (by decide) (by decide) (by decide) (by decide) q
    have q := condRename_ok_imp _ "y" "j" "latitude" "lat" d4 d5 e5
      (by decide) (by decide) (by decide) (by decide) q
    have q := condRename_ok_imp _ "depth" "lev" "latitude" "lat" d5 d6 e6
      (by decide) (by decide) (by decide) (by decide) q
    exact condRename_ok_imp _ "bounds" "bnds" "latitude" "lat" d6 d7 e7
      (by decide) (by decide) (by decide) (by decide) q
  · -- longitude guard dead
    have q := condRename_coords_establishes "longitude" "lon" (by decide) d1 d2 e2
    have q := condRename_ok_imp _ "region" "basin" "longitude" "lon" d2 d3 e3
      (by decide) (by decide) (by decide) (by decide) q
    have q := condRename_ok_imp _ "x" "i" "longitude" "lon" d3 d4 e4
      (by decide) (by decide) (by decide) (by decide) q
    have q := condRename_ok_imp _ "y" "j" "longitude" "lon" d4 d5 e5
      (by decide) (by decide) (by decide) (by decide) q
    have q := condRename_ok_imp _ "depth" "lev" "longitude" "lon" d5 d6 e6
      (by decide) (by decide) (by decide) (by decide) q
    exact condRename_ok_imp _ "bounds" "bnds" "longitude" "lon" d6 d7 e7
      (by decide) (by decide) (by decide) (by decide) q
  · -- region gone from dims
    have q := condRename_dims_trim "region" "basin" (by decide) d2 d3 e3
    have q := condRename_ok_notdims _ "x" "i" "region" d3 d4 e4 (by decide) (by decide) q
    have q := condRename_ok_notdims _ "y" "j" "region" d4 d5 e5 (by decide) (by decide) q
    have q := condRename_ok_notdims _ "depth" "lev" "region" d5 d6 e6 (by decide) (by decide) q
    exact condRename_ok_notdims _ "bounds" "bnds" "region" d6 d7 e7 (by decide) (by decide) q
  · -- x gone from dims
    have q := condRename_dims_trim "x" "i" (by decide) d3 d4 e4
    have q := condRename_ok_notdims _ "y" "j" "x" d4 d5 e5 (by decide) (by decide) q
    have q := condRename_ok_notdims _ "depth" "lev" "x" d5 d6 e6 (by decide) (by decide) q
    exact condRename_ok_notdims _ "bounds" "bnds" "x" d6 d7 e7 (by decide) (by decide) q
  · -- y gone from dims
    have q := condRename_dims_trim "y" "j" (by decide) d4 d5 e5
    have q := condRename_ok_notdims _ "depth" "lev" "y" d5 d6 e6 (by decide) (by decide) q
    exact condRename_ok_notdims _ "bounds" "bnds" "y" d6 d7 e7 (by decide) (by decide) q
  · -- depth gone from dims
    have q := condRename_dims_trim "depth" "lev" (by decide) d5 d6 e6
    exact condRename_ok_notdims _ "bounds" "bnds" "depth" d6 d7 e7 (by decide) (by decide) q
  · -- bounds gone from dims
    exact condRename_dims_trim "bounds" "bnds" (by decide) d6 d7 e7

/-! ### Concrete example data -/

/-- A 2 x 2 source dataset with distinct vertex values. -/
def dsEx2 : GridDS :=
  { lat := [[10, 11], [20, 21]]
  , lon := [[0, 1], [2, 3]]
  , vertices_latitude := [[[0, 1, 2, 3], [10, 11, 12, 13]],
                          [[100, 101, 102, 103], [110, 111, 112, 113]]]
  , vertices_longitude := [[[5, 6, 7, 8], [15, 16, 17, 18]],
                           [[25, 26, 27, 28], [35, 36, 37, 38]]] }

/-- A 385-row, single-column dataset shaped like the NorESM2 ocean grid. -/
def dsEx385 : GridDS :=
  { lat := List.replicate 385 [0]
  , lon := List.replicate 385 [0]
  , vertices_latitude := List.replicate 385 [[0, 0, 0, 0]]
  , vertices_longitude := List.replicate 385 [[0, 0, 0, 0]] }

/-- Centers 2 x 2 but vertex arrays 1 x 1: leading dimensions disagree. -/
def dsMis : GridDS :=
  { lat := [[10, 10], [20, 20]]
  , lon := [[0, 1], [0, 1]]
  , vertices_latitude := [[[0, 1, 2, 3]]]
  , vertices_longitude := [[[5, 6, 7, 8]]] }

/-- A small regular target grid with monotonic bounds. -/
def outDsEx : OutDS :=
  { lat := [0, 2], lon := [1]
  , lat_bnds := [[-1, 1], [1, 3]]
  , lon_bnds := [[0, 2]] }

/-- A target grid whose bound pairs are not strictly ordered. -/
def outDsBad : OutDS :=
  { lat := [0, 1], lon := [0, 1]
  , lat_bnds := [[5, 3], [9, 2]]
  , lon_bnds := [[4, 1], [8, 0]] }

/-- A raw-named dataset: every rename guard of `consistent_naming` fires. -/
def dsRawNames : NamedDS :=
  { coords := ["latitude", "longitude"], dims := ["x", "y", "time"] }

/-- A dataset already on the canonical names. -/
def dsCanonNames : NamedDS :=
  { coords := ["lat", "lon"], dims := ["i", "j", "lev"] }

/-- An ocean field without a `sigma` coordinate. -/
def ocnNoSigma : OcnField := { coords := ["time", "j", "i"], data := [[[1]]] }

/-- An ocean field on a (sigma, j, i) = (2, 1, 2) grid. -/
def ocnSigma : OcnField := { coords := ["sigma", "j", "i"], data := [[[4, 6]], [[2, 2]]] }

/-- A pressure-thickness field on the same (2, 1, 2) grid. -/
def dpEx : OcnField := { coords := ["sigma", "j", "i"], data := [[[1, 1]], [[1, 3]]] }

/-- A cell-area weight field on the (1, 2) horizontal grid. -/
def pwEx : Grid2 := [[2, 1]]

/-! ### Claim theorems -/

/-- C1 (counterexample).  The claim predicts that for NorESM2-LM with 385 input
rows and `is_sea_ice = False` the effective row count is 384, and that with
`is_sea_ice = True` it stays unchanged.  The code does the opposite: the trim
at lines 35-37 fires only when `seaice` is True. -/
theorem c1_row_trim_counterexample :
    dsEx385.lat.length = 385 ∧
    (make_bounds "NorESM2-LM" dsEx385 false).lat.length = 385 ∧
    (make_bounds "NorESM2-LM" dsEx385 true).lat.length = 384 := by
  have hlen : dsEx385.lat.length = 385 := by
    show (List.replicate 385 ([0] : List ℚ)).length = 385
    rw [List.length_replicate]
  refine ⟨hlen, ?_, ?_⟩
  · rw [make_bounds_lat_length]
    unfold effRows
    rw [if_neg (by simp), hlen]
  · rw [make_bounds_lat_length]
    unfold effRows
    rw [if_pos ⟨by decide, rfl⟩, hlen]

/-- C1 (amended).  `make_bounds` drops the duplicated last row exactly when the
model is NorESM2-LM or NorESM2-MM and `seaice` is True; in every other case —
including `seaice = False` for those models — the row count is unchanged. -/
theorem c1_row_trim (m : String) (ds : GridDS) (si : Bool) :
    (make_bounds m ds si).lat.length =
      if m ∈ knownModels ∧ si = true then ds.lat.length - 1 else ds.lat.length := by
  rw [make_bounds_lat_length]; rfl

/-- C2.  Entry (r, c) of each corner mesh of `make_bounds` is assembled from
the vertex quads exactly as the spec states: the lower-left vertex (index 0)
for the main (rows) x (cols) block, the lower-right vertex (index 1) of the
last column for the extra column, and the upper-left / upper-right vertices
(indices 3 / 2) of the last row for the extra row; the latitude mesh
additionally passes through the polar clamp. -/
theorem c2_corner_assembly (m : String) (ds : GridDS) (si : Bool) (R C : Nat)
    (hR : 0 < R) (hC : 0 < C) (hlat : ds.lat.length = R)
    (hvlat : isVert R C ds.vertices_latitude) (hvlon : isVert R C ds.vertices_longitude)
    (r c : Nat) (hr : r < (make_bounds m ds si).lat.length + 1) (hc : c < C + 1) :
    ((make_bounds m ds si).lon_b.getD r []).getD c 0 =
      cornerOf ds.vertices_longitude R C r c ∧
    ((make_bounds m ds si).lat_b.getD r []).getD c 0 =
      clampLat (cornerOf ds.vertices_latitude R C r c) := by
  rw [make_bounds_lat_length] at hr
  exact make_bounds_getD m ds si R C hR hC hlat hvlat hvlon r c hr hc

/-- C2 witness: the corner assembly evaluated on the 2 x 2 example at all four
kinds of positions (interior, extra column, extra row, final corner). -/
theorem c2_corner_assembly_witness :
    ((make_bounds "NorESM2-LM" dsEx2 false).lon_b.getD 0 []).getD 0 0 =
      cornerOf dsEx2.vertices_longitude 2 2 0 0 ∧
    ((make_bounds "NorESM2-LM" dsEx2 false).lon_b.getD 0 []).getD 2 0 =
      cornerOf dsEx2.vertices_longitude 2 2 0 2 ∧
    ((make_bounds "NorESM2-LM" dsEx2 false).lon_b.getD 2 []).getD 1 0 =
      cornerOf dsEx2.vertices_longitude 2 2 2 1 ∧
    ((make_bounds "NorESM2-LM" dsEx2 false).lat_b.getD 2 []).getD 2 0 =
      clampLat (cornerOf dsEx2.vertices_latitude 2 2 2 2) := by
  refine ⟨?_, ?_, ?_, ?_⟩
  · exact (c2_corner_assembly "NorESM2-LM" dsEx2 false 2 2 (by decide) (by decide) (by decide)
      (by decide) (by decide) 0 0 (by decide) (by decide)).1
  · exact (c2_corner_assembly "NorESM2-LM" dsEx2 false 2 2 (by decide) (by decide) (by decide)
      (by decide) (by decide) 0 2 (by decide) (by decide)).1
  · exact (c2_corner_assembly "NorESM2-LM" dsEx2 false 2 2 (by decide) (by decide) (by decide)
      (by decide) (by decide) 2 1 (by decide) (by decide)).1
  · exact (c2_corner_assembly "NorESM2-LM" dsEx2 false 2 2 (by decide) (by decide) (by decide)
      (by decide) (by decide) 2 2 (by decide) (by decide)).2

/-- C3.  For an R x C center array the corner meshes have exactly one more row
and one more column than the effective (possibly trimmed) center array. -/
theorem c3_corner_mesh_shape (m : String) (ds : GridDS) (si : Bool) (R C : Nat)
    (hR : 0 < R) (hlat : isGrid R C ds.lat) (hlon : isGrid R C ds.lon)
    (hvlat : isVert R C ds.vertices_latitude) (hvlon : isVert R C ds.vertices_longitude) :
    isGrid ((make_bounds m ds si).lat.length) C (make_bounds m ds si).lat ∧
    isGrid ((make_bounds m ds si).lat.length + 1) (C + 1) (make_bounds m ds si).lat_b ∧
    isGrid ((make_bounds m ds si).lat.length + 1) (C + 1) (make_bounds m ds si).lon_b := by
  rw [make_bounds_lat_length]
  have h := make_bounds_shape m ds si R C hR hlat hlon hvlat hvlon
  exact ⟨h.1, h.2.2.1, h.2.2.2⟩

/-- C3 witness: the 2 x 2 example yields a 2 x 2 effective center array and
3 x 3 corner meshes. -/
theorem c3_corner_mesh_shape_witness :
    isGrid ((make_bounds "NorESM2-LM" dsEx2 false).lat.length) 2
      (make_bounds "NorESM2-LM" dsEx2 false).lat ∧
    isGrid ((make_bounds "NorESM2-LM" dsEx2 false).lat.length + 1) 3
      (make_bounds "NorESM2-LM" dsEx2 false).lat_b ∧
    isGrid ((make_bounds "NorESM2-LM" dsEx2 false).lat.length + 1) 3
      (make_bounds "NorESM2-LM" dsEx2 false).lon_b :=
  c3_corner_mesh_shape "NorESM2-LM" dsEx2 false 2 2 (by decide) (by decide) (by decide)
    (by decide) (by decide)

/-- C4.  After the polar clamp every corner latitude lies in [-90, 90], and
the clamp maps values above 90 to 90, below -90 to -90, and leaves values in
the open interval unchanged. -/
theorem c4_polar_clamp (m : String) (ds : GridDS) (si : Bool) :
    (∀ row ∈ (make_bounds m ds si).lat_b, ∀ q ∈ row, -90 ≤ q ∧ q ≤ 90) ∧
    ∀ x : ℚ, (90 < x → clampLat x = 90) ∧ (x < -90 → clampLat x = -90) ∧
      (-90 < x → x < 90 → clampLat x = x) :=
  ⟨make_bounds_lat_b_bounded m ds si,
   fun x => ⟨clampLat_high x, clampLat_low x, clampLat_id x⟩⟩

/-- C4 witness: clamp behaviour at 95, -95 and 45, plus the range fact for a
mesh entry of the 2 x 2 example (whose vertex latitude 113 is clamped to 90). -/
theorem c4_polar_clamp_witness :
    (-90 ≤ (90 : ℚ) ∧ (90 : ℚ) ≤ 90) ∧
    clampLat 95 = 90 ∧ clampLat (-95) = -90 ∧ clampLat 45 = 45 := by
  refine ⟨?_, ?_, ?_, ?_⟩
  · exact (c4_polar_clamp "NorESM2-LM" dsEx2 false).1 [90, 90, 90] (by decide) 90 (by decide)
  · exact ((c4_polar_clamp "NorESM2-LM" dsEx2 false).2 95).1 (by norm_num)
  · exact ((c4_polar_clamp "NorESM2-LM" dsEx2 false).2 (-95)).2.1 (by norm_num)
  · exact ((c4_polar_clamp "NorESM2-LM" dsEx2 false).2 45).2.2 (by norm_num) (by norm_num)

/-- C5.  For each axis `mk_outgrid` builds an edge vector of length N+1 whose
first N entries are the lower bound (bnds index 0) of each cell and whose last
entry is the upper bound (bnds index 1) of the last cell. -/
theorem c5_outgrid_edges (ds : OutDS)
    (hlat : 0 < ds.lat_bnds.length) (hlon : 0 < ds.lon_bnds.length) :
    ((mk_outgrid ds).lat_b.length = ds.lat_bnds.length + 1 ∧
     (∀ k, k < ds.lat_bnds.length →
       (mk_outgrid ds).lat_b.getD k 0 = (ds.lat_bnds.getD k []).getD 0 0) ∧
     (mk_outgrid ds).lat_b.getD ds.lat_bnds.length 0 =
       (ds.lat_bnds.getD (ds.lat_bnds.length - 1) []).getD 1 0) ∧
    ((mk_outgrid ds).lon_b.length = ds.lon_bnds.length + 1 ∧
     (∀ k, k < ds.lon_bnds.length →
       (mk_outgrid ds).lon_b.getD k 0 = (ds.lon_bnds.getD k []).getD 0 0) ∧
     (mk_outgrid ds).lon_b.getD ds.lon_bnds.length 0 =
       (ds.lon_bnds.getD (ds.lon_bnds.length - 1) []).getD 1 0) :=
  ⟨edgeVector_spec ds.lat_bnds hlat, edgeVector_spec ds.lon_bnds hlon⟩

/-- C5 witness: the edge vectors of the small regular example grid. -/
theorem c5_outgrid_edges_witness :
    (mk_outgrid outDsEx).lat_b.length = 3 ∧
    (mk_outgrid outDsEx).lat_b.getD 0 0 = (outDsEx.lat_bnds.getD 0 []).getD 0 0 ∧
    (mk_outgrid outDsEx).lat_b.getD 1 0 = (outDsEx.lat_bnds.getD 1 []).getD 0 0 ∧
    (mk_outgrid outDsEx).lat_b.getD 2 0 = (outDsEx.lat_bnds.getD 1 []).getD 1 0 ∧
    (mk_outgrid outDsEx).lon_b.length = 2 := by
  have h := c5_outgrid_edges outDsEx (by decide) (by decide)
  exact ⟨h.1.1, h.1.2.1 0 (by decide), h.1.2.1 1 (by decide), h.1.2.2, h.2.1⟩

/-- C6 (counterexample).  The claim predicts a `NonMonotonicBoundsError` for a
target grid whose bound pairs are not strictly ordered; `mk_outgrid` has no
validation and no error path, and returns an ordinary output grid built by the
same concatenation. -/
theorem c6_no_monotonic_check_counterexample :
    ¬ strictlyOrderedBnds outDsBad.lat_bnds ∧
    ¬ strictlyOrderedBnds outDsBad.lon_bnds ∧
    mk_outgrid outDsBad = ⟨[0, 1], [0, 1], [5, 9, 2], [4, 8, 0]⟩ := by
  exact ⟨by decide, by decide, rfl⟩

/-- C6 (amended).  `mk_outgrid` performs no monotonicity validation and cannot
fail: for every input — strictly ordered bounds or not — it succeeds and
returns the N+1 edge vectors. -/
theorem c6_no_monotonic_check (ds : OutDS) :
    (mk_outgrid ds).lat_b.length = ds.lat_bnds.length + 1 ∧
    (mk_outgrid ds).lon_b.length = ds.lon_bnds.length + 1 := by
  constructor
  · show (ds.lat_bnds.map (fun p => p.getD 0 0) ++ [(ds.lat_bnds.getLastD []).getD 1 0]).length =
      ds.lat_bnds.length + 1
    rw [List.length_append, List.length_map]
    rfl
  · show (ds.lon_bnds.map (fun p => p.getD 0 0) ++ [(ds.lon_bnds.getLastD []).getD 1 0]).length =
      ds.lon_bnds.length + 1
    rw [List.length_append, List.length_map]
    rfl

/-- C7 (counterexample).  The claim predicts `UnsupportedModelError` for an
unknown model and `ShapeMismatchError` for vertex arrays whose leading
dimensions disagree with the centers; `make_bounds` has neither check and
returns an ordinary geometry on a dataset exhibiting both conditions. -/
theorem c7_no_validation_counterexample :
    "FOO" ∉ knownModels ∧
    dsMis.vertices_latitude.length ≠ dsMis.lat.length ∧
    make_bounds "FOO" dsMis false =
      ⟨[[10, 10], [20, 20]], [[0, 1], [0, 1]], [[0, 1], [3, 2]], [[5, 6], [8, 7]]⟩ := by
  exact ⟨by decide, by decide, rfl⟩

/-- C7 (amended).  `make_bounds` raises no error for a model outside the known
table: such a model simply gets no row trimming, so the `seaice` flag is
irrelevant and the effective row count equals the input row count; no shape
validation of the vertex arrays exists anywhere in the function. -/
theorem c7_unknown_model_no_error (m : String) (ds : GridDS) (si : Bool)
    (h : m ∉ knownModels) :
    make_bounds m ds si = make_bounds m ds false ∧
    (make_bounds m ds si).lat.length = ds.lat.length := by
  have he : ∀ b : Bool, effRows m ds b = ds.lat.length := by
    intro b
    unfold effRows
    rw [if_neg (fun hc => h hc.1)]
  constructor
  · unfold make_bounds
    rw [he si, he false]
  · rw [make_bounds_lat_length, he si]

/-- C7 witness: the unknown model "FOO" on the 2 x 2 example with
`seaice = True` behaves exactly like `seaice = False` and keeps both rows. -/
theorem c7_unknown_model_no_error_witness :
    make_bounds "FOO" dsEx2 true = make_bounds "FOO" dsEx2 false ∧
    (make_bounds "FOO" dsEx2 true).lat.length = dsEx2.lat.length :=
  c7_unknown_model_no_error "FOO" dsEx2 true (by decide)

/-- C8.  Every call of `make_regridder` fails with a `NameError` on
`modelname` before any regridder is constructed: the name is neither among the
function's local names nor among the module-level names. -/
theorem c8_make_regridder_name_error (ds : GridDS) (og : OutGrid)
    (p mode : String) (rweights : Bool) :
    make_regridder ds og p mode rweights = Except.error (PyError.nameError "modelname") ∧
    "modelname" ∉ makeRegridderLocalNames ∧ "modelname" ∉ regridModuleNames := by
  refine ⟨?_, by decide, by decide⟩
  rfl

/-- C9.  `consistent_naming` is idempotent: composing it with itself (through
the error monad) changes nothing, and a dataset that only uses the canonical
names (lat, lon, basin, i, j, lev, bnds) is returned unchanged. -/
theorem c9_consistent_naming_idempotent (ds dsC : NamedDS)
    (hC : ∀ n ∈ dsC.coords, n ∈ canonicalNames)
    (hD : ∀ n ∈ dsC.dims, n ∈ canonicalNames) :
    (consistent_naming ds).bind consistent_naming = consistent_naming ds ∧
    consistent_naming dsC = Except.ok dsC := by
  constructor
  · cases hrun : consistent_naming ds with
    | error e => rfl
    | ok d' => exact settled_fix d' (consistent_naming_settled ds d' hrun)
  · apply settled_fix
    refine ⟨?_, ?_, ?_, ?_, ?_, ?_, ?_⟩
    · intro hm; exact absurd (hC _ hm) (by decide)
    · intro hm; exact absurd (hC _ hm) (by decide)
    · intro hm; exact absurd (hD _ hm) (by decide)
    · intro hm; exact absurd (hD _ hm) (by decide)
    · intro hm; exact absurd (hD _ hm) (by decide)
    · intro hm; exact absurd (hD _ hm) (by decide)
    · intro hm; exact absurd (hD _ hm) (by decide)

/-- C9 witness: idempotence on a raw-named dataset and fixpoint behaviour on a
canonically named dataset. -/
theorem c9_consistent_naming_idempotent_witness :
    (consistent_naming dsRawNames).bind consistent_naming = consistent_naming dsRawNames ∧
    consistent_naming dsCanonNames = Except.ok dsCanonNames :=
  c9_consistent_naming_idempotent dsRawNames dsCanonNames (by decide) (by decide)

/-- C10.  `volumeavg_ocn` assigns its result only inside the `sigma` branch:
without a `sigma` coordinate it raises `UnboundLocalError` on `ds_out`, and
with one it returns a value. -/
theorem c10_volumeavg_requires_sigma (ds dp : OcnField) (pw : Grid2) :
    ("sigma" ∉ ds.coords →
      volumeavg_ocn ds dp pw = Except.error (PyError.unboundLocalError "ds_out")) ∧
    ("sigma" ∈ ds.coords → ∃ v, volumeavg_ocn ds dp pw = Except.ok v) := by
  constructor
  · intro h
    unfold volumeavg_ocn
    rw [if_neg h]
  · intro h
    unfold volumeavg_ocn
    rw [if_pos h]
    exact ⟨_, rfl⟩

/-- C10 witness: a field without `sigma` raises, a field with `sigma` returns. -/
theorem c10_volumeavg_requires_sigma_witness :
    volumeavg_ocn ocnNoSigma dpEx pwEx = Except.error (PyError.unboundLocalError "ds_out") ∧
    ∃ v, volumeavg_ocn ocnSigma dpEx pwEx = Except.ok v :=
  ⟨(c10_volumeavg_requires_sigma ocnNoSigma dpEx pwEx).1 (by decide),
   (c10_volumeavg_requires_sigma ocnSigma dpEx pwEx).2 (by decide)⟩
